import Mathlib

/-!
Verification of the karidf-scripts batch downloaders
(`download_freesurfer.py`, `download_pup.py`, `download_scans.py`).

Strings are embedded as `List Char`; an archive entry is a pair of its
internal path and an opaque content value; the destination directory is an
association list from relative paths to contents, written left to right with
later writes overwriting earlier ones.  Python's `s.split(sep, 1)` is
embedded as `splitFirstOn`, which locates the first occurrence of `sep`.
-/

/-- Paths and string data from the scripts, as lists of characters. -/
abbrev Str := List Char

/-- Split a string at the first occurrence of `sep`, returning the parts
before and after it, or `none` when `sep` does not occur.  This is Python's
`s.split(sep, 1)`: the result `[b, a]` exists exactly when `sep` occurs, and
`s.split(sep)[0]` is the `b` component (or the whole string when absent). -/
def splitFirstOn (sep : Str) : Str → Option (Str × Str)
  | [] => if sep.isPrefixOf ([] : Str) then some ([], []) else none
  | c :: rest =>
    if sep.isPrefixOf (c :: rest) then some ([], (c :: rest).drop sep.length)
    else (splitFirstOn sep rest).map (fun p => (c :: p.1, p.2))

/-- Python `s.split(sep)[0]`: everything before the first occurrence of
`sep`, or the whole string when `sep` is absent. -/
def headBeforeFirst (sep s : Str) : Str :=
  match splitFirstOn sep s with
  | some p => p.1
  | none => s

/-- Python `s.split(".")`: dot-delimited segments of a string. -/
def dotParts (s : Str) : List Str := s.splitOn '.'

/-- Python `'needle' in hay`: contiguous substring test. -/
def strContains (hay needle : Str) : Bool := decide (needle <:+: hay)

/-- The contents of the destination directory: relative path to content
pairs, kept unique by construction of `fsWrite`. -/
abbrev FileSys := List (Str × Nat)

/-- Write (or overwrite) one file. -/
def fsWrite (fs : FileSys) (p : Str) (c : Nat) : FileSys :=
  fs.filter (fun e => ¬ (e.1 = p)) ++ [(p, c)]

/-- Apply a list of writes in order. -/
def applyWrites (fs : FileSys) : List (Str × Nat) → FileSys
  | [] => fs
  | w :: ws => applyWrites (fsWrite fs w.1 w.2) ws

/-- Content stored at a path: the first matching entry. -/
def fsGet (fs : FileSys) (p : Str) : Option Nat :=
  (fs.find? (fun e => e.1 == p)).map (fun e => e.2)

section SplitFirstLemmas

theorem splitFirstOn_eq_append {sep xs b a : Str}
    (h : splitFirstOn sep xs = some (b, a)) : xs = b ++ sep ++ a := by
  induction xs generalizing b a with
  | nil =>
    unfold splitFirstOn at h
    split at h
    · rename_i hp
      simp only [Option.some.injEq, Prod.mk.injEq] at h
      obtain ⟨hb, ha⟩ := h
      have hsep : sep = [] := by
        have := List.isPrefixOf_iff_prefix.mp hp
        simpa using this
      simp [← hb, ← ha, hsep]
    · exact absurd h (by simp)
  | cons c rest ih =>
    unfold splitFirstOn at h
    split at h
    · rename_i hp
      simp only [Option.some.injEq, Prod.mk.injEq] at h
      obtain ⟨hb, ha⟩ := h
      have hpre : sep <+: c :: rest := List.isPrefixOf_iff_prefix.mp hp
      obtain ⟨t, ht⟩ := hpre
      have hdrop : (c :: rest).drop sep.length = t := by
        rw [← ht, List.drop_left]
      rw [← hb, ← ha, hdrop]
      simpa using ht.symm
    · rename_i hp
      simp only [Option.map_eq_some'] at h
      obtain ⟨⟨b0, a0⟩, hrec, heq⟩ := h
      simp only [Prod.mk.injEq] at heq
      obtain ⟨hb, ha⟩ := heq
      have := ih hrec
      rw [← hb, ← ha, this]
      simp

theorem splitFirstOn_minimal {sep xs b a : Str}
    (h : splitFirstOn sep xs = some (b, a)) :
    ∀ b' a', xs = b' ++ sep ++ a' → b.length ≤ b'.length := by
  induction xs generalizing b a with
  | nil =>
    intro b' a' hx
    unfold splitFirstOn at h
    split at h
    · simp only [Option.some.injEq, Prod.mk.injEq] at h
      simp [← h.1]
    · exact absurd h (by simp)
  | cons c rest ih =>
    intro b' a' hx
    unfold splitFirstOn at h
    split at h
    · simp only [Option.some.injEq, Prod.mk.injEq] at h
      simp [← h.1]
    · rename_i hp
      simp only [Option.map_eq_some'] at h
      obtain ⟨⟨b0, a0⟩, hrec, heq⟩ := h
      simp only [Prod.mk.injEq] at heq
      cases b' with
      | nil =>
        exfalso
        apply hp
        apply List.isPrefixOf_iff_prefix.mpr
        exact ⟨a', by simpa using hx.symm⟩
      | cons c' b'' =>
        simp only [List.cons_append, List.cons.injEq] at hx
        have := ih hrec b'' a' hx.2
        simp only [← heq.1, List.length_cons]
        omega

theorem splitFirstOn_none {sep xs : Str}
    (h : splitFirstOn sep xs = none) : ¬ ∃ b a, xs = b ++ sep ++ a := by
  induction xs with
  | nil =>
    rintro ⟨b, a, hx⟩
    unfold splitFirstOn at h
    split at h
    · exact absurd h (by simp)
    · rename_i hp
      have hparts : b = [] ∧ sep = [] ∧ a = [] := by simpa using hx.symm
      apply hp
      apply List.isPrefixOf_iff_prefix.mpr
      simp [hparts.2.1]
  | cons c rest ih =>
    rintro ⟨b, a, hx⟩
    unfold splitFirstOn at h
    split at h
    · exact absurd h (by simp)
    · rename_i hp
      simp only [Option.map_eq_none'] at h
      cases b with
      | nil =>
        apply hp
        apply List.isPrefixOf_iff_prefix.mpr
        exact ⟨a, by simpa using hx.symm⟩
      | cons c' b'' =>
        simp only [List.cons_append, List.cons.injEq] at hx
        exact ih h ⟨b'', a, hx.2⟩

theorem splitFirstOn_of_starts {sep r : Str} (hsep : sep ≠ []) :
    splitFirstOn sep (sep ++ r) = some ([], r) := by
  cases sep with
  | nil => exact absurd rfl hsep
  | cons c s =>
    have hx : (c :: s) ++ r = c :: (s ++ r) := by simp
    rw [hx]
    unfold splitFirstOn
    have hp : (c :: s).isPrefixOf (c :: (s ++ r)) = true := by
      apply List.isPrefixOf_iff_prefix.mpr
      exact ⟨r, by simp⟩
    rw [if_pos hp]
    have : (c :: (s ++ r)).drop (c :: s).length = r := by
      rw [← hx]
      exact List.drop_left _ _
    rw [this]

end SplitFirstLemmas

section FileSysLemmas

theorem applyWrites_eq_filter_append (fs : FileSys) (ws : List (Str × Nat)) :
    applyWrites fs ws
      = fs.filter (fun e => ¬ (e.1 ∈ ws.map Prod.fst)) ++ applyWrites [] ws := by
  induction ws generalizing fs with
  | nil => simp [applyWrites]
  | cons w ws ih =>
    show applyWrites (fsWrite fs w.1 w.2) ws = _
    rw [ih (fsWrite fs w.1 w.2)]
    have hsingle : applyWrites [] (w :: ws)
        = ([w].filter (fun e => ¬ (e.1 ∈ ws.map Prod.fst))) ++ applyWrites [] ws := by
      show applyWrites (fsWrite [] w.1 w.2) ws = _
      rw [ih (fsWrite [] w.1 w.2)]
      simp [fsWrite]
    rw [hsingle]
    simp only [fsWrite, List.filter_append, List.map_cons]
    rw [List.filter_filter]
    have hpred : ∀ e : Str × Nat,
        ((¬ (e.1 ∈ w.1 :: ws.map Prod.fst) : Bool)) =
          ((¬ (e.1 ∈ ws.map Prod.fst) : Bool) && (¬ (e.1 = w.1) : Bool)) := by
      intro e
      by_cases h1 : e.1 = w.1 <;> by_cases h2 : e.1 ∈ ws.map Prod.fst <;>
        simp [h1, h2]
    simp only [List.filter_congr (fun e _ => hpred e)]
    simp [List.append_assoc]

theorem applyWrites_paths_subset (fs : FileSys) (ws : List (Str × Nat)) :
    ∀ e ∈ applyWrites fs ws, e.1 ∈ fs.map Prod.fst ∨ e.1 ∈ ws.map Prod.fst := by
  induction ws generalizing fs with
  | nil => intro e he; simp [applyWrites] at he; left; exact List.mem_map_of_mem _ he
  | cons w ws ih =>
    intro e he
    have := ih (fsWrite fs w.1 w.2) e he
    rcases this with h | h
    · simp only [fsWrite, List.map_append, List.mem_append] at h
      rcases h with h | h
      · left
        obtain ⟨x, hx, hx2⟩ := List.mem_map.mp h
        exact List.mem_map.mpr ⟨x, List.mem_of_mem_filter hx, hx2⟩
      · right; simp at h; simp [h]
    · right; simp [h]

theorem applyWrites_twice (ws : List (Str × Nat)) :
    applyWrites (applyWrites [] ws) ws = applyWrites [] ws := by
  conv_lhs => rw [applyWrites_eq_filter_append]
  have : (applyWrites [] ws).filter (fun e => ¬ (e.1 ∈ ws.map Prod.fst)) = [] := by
    apply List.filter_eq_nil_iff.mpr
    intro e he
    have := applyWrites_paths_subset [] ws e he
    simp only [List.map_nil, List.not_mem_nil, false_or] at this
    simp [this]
  rw [this, List.nil_append]

theorem applyWrites_nodup_eq (ws : List (Str × Nat))
    (h : (ws.map Prod.fst).Nodup) : applyWrites [] ws = ws := by
  induction ws with
  | nil => simp [applyWrites]
  | cons w ws ih =>
    show applyWrites (fsWrite [] w.1 w.2) ws = w :: ws
    rw [applyWrites_eq_filter_append]
    simp only [List.map_cons, List.nodup_cons] at h
    have hw : fsWrite [] w.1 w.2 = [w] := by simp [fsWrite]
    rw [hw, ih h.2]
    have : [w].filter (fun e => ¬ (e.1 ∈ ws.map Prod.fst)) = [w] := by
      simp [List.filter, h.1]
    rw [this]
    simp

end FileSysLemmas

/-- Boolean selection flags of `download_freesurfer.py` (argparse
`store_true` flags, default false), in source order. -/
structure FsConfig where
  download_annot : Bool := false
  download_area : Bool := false
  download_avg_curv : Bool := false
  download_bak : Bool := false
  download_cmd : Bool := false
  download_crv : Bool := false
  download_csurfdir : Bool := false
  download_ctab : Bool := false
  download_curv : Bool := false
  download_dat : Bool := false
  download_defect_borders : Bool := false
  download_defect_chull : Bool := false
  download_defect_labels : Bool := false
  download_done : Bool := false
  download_env : Bool := false
  download_H : Bool := false
  download_inflated : Bool := false
  download_jacobian_white : Bool := false
  download_K : Bool := false
  download_local_copy : Bool := false
  download_logs : Bool := false
  download_label : Bool := false
  download_lta : Bool := false
  download_m3z : Bool := false
  download_mgh : Bool := false
  download_mgz : Bool := false
  download_mid : Bool := false
  download_nofix : Bool := false
  download_old : Bool := false
  download_orig : Bool := false
  download_pial : Bool := false
  download_reg : Bool := false
  download_smoothwm : Bool := false
  download_sphere : Bool := false
  download_stats : Bool := false
  download_sulc : Bool := false
  download_thickness : Bool := false
  download_touch : Bool := false
  download_txt : Bool := false
  download_volume : Bool := false
  download_white : Bool := false
  download_xdebug_mris_calc : Bool := false
  download_xfm : Bool := false
  download_snaps : Bool := false

/-- The include-all indicator of `download_freesurfer.py` (line 241): true
exactly when no selection flag is set, computed once at startup. -/
def fsDownloadAll (cfg : FsConfig) : Bool :=
  !cfg.download_annot && !cfg.download_area && !cfg.download_avg_curv &&
  !cfg.download_bak && !cfg.download_cmd && !cfg.download_crv &&
  !cfg.download_csurfdir && !cfg.download_ctab && !cfg.download_curv &&
  !cfg.download_dat && !cfg.download_defect_borders && !cfg.download_defect_chull &&
  !cfg.download_defect_labels && !cfg.download_done && !cfg.download_env &&
  !cfg.download_H && !cfg.download_inflated && !cfg.download_jacobian_white &&
  !cfg.download_K && !cfg.download_label && !cfg.download_local_copy &&
  !cfg.download_logs && !cfg.download_lta && !cfg.download_m3z &&
  !cfg.download_mgh && !cfg.download_mgz && !cfg.download_mid &&
  !cfg.download_nofix && !cfg.download_old && !cfg.download_orig &&
  !cfg.download_pial && !cfg.download_reg && !cfg.download_smoothwm &&
  !cfg.download_sphere && !cfg.download_stats && !cfg.download_sulc &&
  !cfg.download_thickness && !cfg.download_touch && !cfg.download_txt &&
  !cfg.download_volume && !cfg.download_white && !cfg.download_xdebug_mris_calc &&
  !cfg.download_xfm && !cfg.download_snaps

def logBundle : Str := "LOG".toList
def snapshotsBundle : Str := "SNAPSHOTS".toList
def dataBundle : Str := "DATA".toList

/-- The per-entry filter decision of `extract_requested_files` in
`download_freesurfer.py` (lines 362-454): the if/elif chain over the
dot-split of the entry name, with `download_all` passed in as the
precomputed global. -/
def shouldExtractFs (download_all : Bool) (cfg : FsConfig)
    (resource_name subfilename : Str) : Bool :=
  if download_all then true
  else if cfg.download_logs && (resource_name == logBundle) then true
  else if cfg.download_snaps && (resource_name == snapshotsBundle) then true
  else if (decide (1 < (dotParts subfilename).length) && ((dotParts subfilename).getLastD [] == "annot".toList)) && cfg.download_annot then true
  else if (decide (1 < (dotParts subfilename).length) && ((dotParts subfilename).getLastD [] == "area".toList)) && cfg.download_area then true
  else if (decide (1 < (dotParts subfilename).length) && ((dotParts subfilename).getLastD [] == "avg_curv".toList)) && cfg.download_avg_curv then true
  else if (decide (1 < (dotParts subfilename).length) && ((dotParts subfilename).getLastD [] == "bak".toList)) && cfg.download_bak then true
  else if (decide (1 < (dotParts subfilename).length) && ((dotParts subfilename).getLastD [] == "cmd".toList)) && cfg.download_cmd then true
  else if (decide (1 < (dotParts subfilename).length) && ((dotParts subfilename).getLastD [] == "crv".toList)) && cfg.download_crv then true
  else if (decide (1 < (dotParts subfilename).length) && ((dotParts subfilename).getLastD [] == "csurfdir".toList)) && cfg.download_csurfdir then true
  else if (decide (1 < (dotParts subfilename).length) && ((dotParts subfilename).getLastD [] == "ctab".toList)) && cfg.download_ctab then true
  else if (decide (1 < (dotParts subfilename).length) && ((dotParts subfilename).getLastD [] == "curv".toList)) && cfg.download_curv then true
  else if (decide (1 < (dotParts subfilename).length) && ((dotParts subfilename).getLastD [] == "dat".toList)) && cfg.download_dat then true
  else if (decide (1 < (dotParts subfilename).length) && ((dotParts subfilename).getLastD [] == "defect_borders".toList)) && cfg.download_defect_borders then true
  else if (decide (1 < (dotParts subfilename).length) && ((dotParts subfilename).getLastD [] == "defect_chull".toList)) && cfg.download_defect_chull then true
  else if (decide (1 < (dotParts subfilename).length) && ((dotParts subfilename).getLastD [] == "defect_labels".toList)) && cfg.download_defect_labels then true
  else if (decide (1 < (dotParts subfilename).length) && ((dotParts subfilename).getLastD [] == "env".toList)) && cfg.download_env then true
  else if (decide (1 < (dotParts subfilename).length) && ((dotParts subfilename).getLastD [] == "H".toList)) && cfg.download_H then true
  else if (decide (1 < (dotParts subfilename).length) && ((dotParts subfilename).getLastD [] == "inflated".toList)) && cfg.download_inflated then true
  else if (decide (1 < (dotParts subfilename).length) && ((dotParts subfilename).getLastD [] == "jacobian_white".toList)) && cfg.download_jacobian_white then true
  else if (decide (1 < (dotParts subfilename).length) && ((dotParts subfilename).getLastD [] == "K".toList)) && cfg.download_K then true
  else if (decide (1 < (dotParts subfilename).length) && ((dotParts subfilename).getLastD [] == "label".toList)) && cfg.download_label then true
  else if (decide (1 < (dotParts subfilename).length) && ((dotParts subfilename).getLastD [] == "local-copy".toList)) && cfg.download_local_copy then true
  else if (decide (1 < (dotParts subfilename).length) && ((dotParts subfilename).getLastD [] == "log".toList)) && cfg.download_logs then true
  else if (decide (1 < (dotParts subfilename).length) && ((dotParts subfilename).getLastD [] == "lta".toList)) && cfg.download_lta then true
  else if (decide (1 < (dotParts subfilename).length) && ((dotParts subfilename).getLastD [] == "m3z".toList)) && cfg.download_m3z then true
  else if (decide (1 < (dotParts subfilename).length) && ((dotParts subfilename).getLastD [] == "mgh".toList)) && cfg.download_mgh then true
  else if (decide (1 < (dotParts subfilename).length) && ((dotParts subfilename).getLastD [] == "mgz".toList)) && cfg.download_mgz then true
  else if (decide (1 < (dotParts subfilename).length) && ((dotParts subfilename).getLastD [] == "mid".toList)) && cfg.download_mid then true
  else if (decide (1 < (dotParts subfilename).length) && ((dotParts subfilename).getLastD [] == "nofix".toList)) && cfg.download_nofix then true
  else if (decide (1 < (dotParts subfilename).length) && ((dotParts subfilename).getLastD [] == "old".toList)) && cfg.download_old then true
  else if (decide (1 < (dotParts subfilename).length) && ((dotParts subfilename).getLastD [] == "orig".toList)) && cfg.download_orig then true
  else if (decide (1 < (dotParts subfilename).length) && ((dotParts subfilename).getLastD [] == "pial".toList)) && cfg.download_pial then true
  else if (decide (1 < (dotParts subfilename).length) && ((dotParts subfilename).getLastD [] == "reg".toList)) && cfg.download_reg then true
  else if (decide (1 < (dotParts subfilename).length) && ((dotParts subfilename).getLastD [] == "smoothwm".toList)) && cfg.download_smoothwm then true
  else if (decide (1 < (dotParts subfilename).length) && ((dotParts subfilename).getLastD [] == "sphere".toList)) && cfg.download_sphere then true
  else if (decide (1 < (dotParts subfilename).length) && ((dotParts subfilename).getLastD [] == "stats".toList)) && cfg.download_stats then true
  else if (decide (1 < (dotParts subfilename).length) && ((dotParts subfilename).getLastD [] == "sulc".toList)) && cfg.download_sulc then true
  else if (decide (1 < (dotParts subfilename).length) && ((dotParts subfilename).getLastD [] == "thickness".toList)) && cfg.download_thickness then true
  else if (decide (1 < (dotParts subfilename).length) && ((dotParts subfilename).getLastD [] == "touch".toList)) && cfg.download_touch then true
  else if (decide (1 < (dotParts subfilename).length) && ((dotParts subfilename).getLastD [] == "txt".toList)) && cfg.download_txt then true
  else if (decide (1 < (dotParts subfilename).length) && ((dotParts subfilename).getLastD [] == "volume".toList)) && cfg.download_volume then true
  else if (decide (1 < (dotParts subfilename).length) && ((dotParts subfilename).getLastD [] == "white".toList)) && cfg.download_white then true
  else if (decide (1 < (dotParts subfilename).length) && ((dotParts subfilename).getLastD [] == "xdebug_mris_calc".toList)) && cfg.download_xdebug_mris_calc then true
  else if (decide (1 < (dotParts subfilename).length) && ((dotParts subfilename).getLastD [] == "xfm".toList)) && cfg.download_xfm then true
  else false

/-- Rewrite of a Bool-guarded if with a true branch into a disjunction. -/
theorem bool_ite_true (b r : Bool) : (if b then true else r) = (b || r) := by
  cases b <;> simp

/-- An if/elif rung whose branch sets the decision to true, seen as a
disjunction. -/
theorem ite_true_eq_true (c : Prop) [Decidable c] (r : Bool) :
    ((if c then true else r) = true) ↔ (c ∨ r = true) := by
  split <;> simp [*]

/-- Chasing an optional discriminant through an existential. -/
theorem exists_ite_some {α : Type} {c : Prop} [Decidable c] {x : α} {P : α → Prop} :
    (∃ d, (if c then some x else none) = some d ∧ P d) ↔ (c ∧ P x) := by
  split <;> simp_all

/-- Modelled from the spec §4.3: the freesurfer-family discriminant is the
final dot-delimited suffix of the entry name, defined only when the name
contains a dot. -/
def fsDiscriminant (subfilename : Str) : Option Str :=
  if 1 < (dotParts subfilename).length
  then some ((dotParts subfilename).getLastD []) else none

/-- Modelled from the spec §4.3/§9 declarative table: a discriminant `d`
matches an enabled freesurfer category exactly when `d` is a recognized
category name whose flag is set.  The recognized categories are the ones a
rule of the chain exists for; `done` and `snaps` have flags but no suffix
rule. -/
def fsCategoryEnabled (cfg : FsConfig) (d : Str) : Prop :=
  (d = "annot".toList ∧ cfg.download_annot = true) ∨
  (d = "area".toList ∧ cfg.download_area = true) ∨
  (d = "avg_curv".toList ∧ cfg.download_avg_curv = true) ∨
  (d = "bak".toList ∧ cfg.download_bak = true) ∨
  (d = "cmd".toList ∧ cfg.download_cmd = true) ∨
  (d = "crv".toList ∧ cfg.download_crv = true) ∨
  (d = "csurfdir".toList ∧ cfg.download_csurfdir = true) ∨
  (d = "ctab".toList ∧ cfg.download_ctab = true) ∨
  (d = "curv".toList ∧ cfg.download_curv = true) ∨
  (d = "dat".toList ∧ cfg.download_dat = true) ∨
  (d = "defect_borders".toList ∧ cfg.download_defect_borders = true) ∨
  (d = "defect_chull".toList ∧ cfg.download_defect_chull = true) ∨
  (d = "defect_labels".toList ∧ cfg.download_defect_labels = true) ∨
  (d = "env".toList ∧ cfg.download_env = true) ∨
  (d = "H".toList ∧ cfg.download_H = true) ∨
  (d = "inflated".toList ∧ cfg.download_inflated = true) ∨
  (d = "jacobian_white".toList ∧ cfg.download_jacobian_white = true) ∨
  (d = "K".toList ∧ cfg.download_K = true) ∨
  (d = "label".toList ∧ cfg.download_label = true) ∨
  (d = "local-copy".toList ∧ cfg.download_local_copy = true) ∨
  (d = "log".toList ∧ cfg.download_logs = true) ∨
  (d = "lta".toList ∧ cfg.download_lta = true) ∨
  (d = "m3z".toList ∧ cfg.download_m3z = true) ∨
  (d = "mgh".toList ∧ cfg.download_mgh = true) ∨
  (d = "mgz".toList ∧ cfg.download_mgz = true) ∨
  (d = "mid".toList ∧ cfg.download_mid = true) ∨
  (d = "nofix".toList ∧ cfg.download_nofix = true) ∨
  (d = "old".toList ∧ cfg.download_old = true) ∨
  (d = "orig".toList ∧ cfg.download_orig = true) ∨
  (d = "pial".toList ∧ cfg.download_pial = true) ∨
  (d = "reg".toList ∧ cfg.download_reg = true) ∨
  (d = "smoothwm".toList ∧ cfg.download_smoothwm = true) ∨
  (d = "sphere".toList ∧ cfg.download_sphere = true) ∨
  (d = "stats".toList ∧ cfg.download_stats = true) ∨
  (d = "sulc".toList ∧ cfg.download_sulc = true) ∨
  (d = "thickness".toList ∧ cfg.download_thickness = true) ∨
  (d = "touch".toList ∧ cfg.download_touch = true) ∨
  (d = "txt".toList ∧ cfg.download_txt = true) ∨
  (d = "volume".toList ∧ cfg.download_volume = true) ∨
  (d = "white".toList ∧ cfg.download_white = true) ∨
  (d = "xdebug_mris_calc".toList ∧ cfg.download_xdebug_mris_calc = true) ∨
  (d = "xfm".toList ∧ cfg.download_xfm = true)

/-- Modelled from the spec §4.3: an entry is to be extracted (once the
include-all shortcut does not apply) exactly when the bundle is the umbrella
LOG bundle with the logs flag set, or the umbrella SNAPSHOTS bundle with the
snapshots flag set, or the entry's discriminant matches an enabled
category. -/
def fsSpecMatches (cfg : FsConfig) (resource_name subfilename : Str) : Prop :=
  (cfg.download_logs = true ∧ resource_name = logBundle) ∨
  (cfg.download_snaps = true ∧ resource_name = snapshotsBundle) ∨
  (∃ d, fsDiscriminant subfilename = some d ∧ fsCategoryEnabled cfg d)

/-- The freesurfer if/elif chain agrees with the declarative category table
whenever the include-all shortcut is off. -/
theorem fs_chain_iff_spec (cfg : FsConfig) (rn fn : Str)
    (h : fsDownloadAll cfg = false) :
    shouldExtractFs (fsDownloadAll cfg) cfg rn fn = true ↔ fsSpecMatches cfg rn fn := by
  rw [h]
  unfold shouldExtractFs fsSpecMatches fsCategoryEnabled fsDiscriminant
  simp only [Bool.false_eq_true, if_false, Bool.and_eq_true, decide_eq_true_eq,
    beq_iff_eq, ite_true_eq_true, and_or_left, exists_or, exists_ite_some,
    and_assoc, or_false, or_assoc]

/-- Boolean selection flags of `download_pup.py` (argparse `store_true`
flags, default false), in source order. -/
structure PupConfig where
  download_4dfp : Bool := false
  download_dat : Bool := false
  download_info : Bool := false
  download_logs : Bool := false
  download_lst : Bool := false
  download_mgz : Bool := false
  download_moco : Bool := false
  download_nii : Bool := false
  download_params : Bool := false
  download_snaps : Bool := false
  download_sub : Bool := false
  download_suvr : Bool := false
  download_tac : Bool := false
  download_tb : Bool := false
  download_txt : Bool := false
  download_no_ext : Bool := false
  download_SUVR4dfp : Bool := false
  download_T10014dfp : Bool := false
  download_PETFOV : Bool := false
  download_RSFMask : Bool := false
  download_wmparc : Bool := false

/-- The include-all indicator of `download_pup.py` (lines 188-193): true
exactly when no selection flag is set. -/
def pupDownloadAll (cfg : PupConfig) : Bool :=
  !cfg.download_4dfp && !cfg.download_dat && !cfg.download_info &&
  !cfg.download_logs && !cfg.download_lst && !cfg.download_mgz &&
  !cfg.download_moco && !cfg.download_nii && !cfg.download_params &&
  !cfg.download_snaps && !cfg.download_sub && !cfg.download_suvr &&
  !cfg.download_tac && !cfg.download_tb && !cfg.download_txt &&
  !cfg.download_SUVR4dfp && !cfg.download_T10014dfp && !cfg.download_PETFOV &&
  !cfg.download_RSFMask && !cfg.download_no_ext && !cfg.download_wmparc

/-- The per-entry filter decision of `extract_requested_files` in
`download_pup.py` (lines 303-353): the if/elif chain over the dot-split of
the full entry name.  Note that segment 0 and segment 1 are taken from the
full archive entry path, exactly as in the source. -/
def shouldExtractPup (download_all : Bool) (cfg : PupConfig)
    (resource_name subfilename : Str) : Bool :=
  if download_all then true
  else if cfg.download_logs && (resource_name == logBundle) then true
  else if cfg.download_snaps && (resource_name == snapshotsBundle) then true
  else if (decide (1 < (dotParts subfilename).length) && strContains ((dotParts subfilename).getD 1 []) "4dfp".toList) && cfg.download_4dfp then true
  else if (decide (1 < (dotParts subfilename).length) && ((dotParts subfilename).getD 1 [] == "dat".toList)) && cfg.download_dat then true
  else if (decide (1 < (dotParts subfilename).length) && ((dotParts subfilename).getD 1 [] == "info".toList)) && cfg.download_info then true
  else if (decide (1 < (dotParts subfilename).length) && ((dotParts subfilename).getD 1 [] == "log".toList)) && cfg.download_logs then true
  else if (decide (1 < (dotParts subfilename).length) && ((dotParts subfilename).getD 1 [] == "lst".toList)) && cfg.download_lst then true
  else if (decide (1 < (dotParts subfilename).length) && ((dotParts subfilename).getD 1 [] == "mgz".toList)) && cfg.download_mgz then true
  else if (decide (1 < (dotParts subfilename).length) && ((dotParts subfilename).getD 1 [] == "moco".toList)) && cfg.download_moco then true
  else if (decide (1 < (dotParts subfilename).length) && ((dotParts subfilename).getD 1 [] == "nii".toList)) && cfg.download_nii then true
  else if (decide (1 < (dotParts subfilename).length) && ((dotParts subfilename).getD 1 [] == "params".toList)) && cfg.download_params then true
  else if (decide (1 < (dotParts subfilename).length) && ((dotParts subfilename).getD 1 [] == "sub".toList)) && cfg.download_sub then true
  else if (decide (1 < (dotParts subfilename).length) && ((dotParts subfilename).getD 1 [] == "suvr".toList)) && cfg.download_suvr then true
  else if (decide (1 < (dotParts subfilename).length) && ((dotParts subfilename).getD 1 [] == "tac".toList)) && cfg.download_tac then true
  else if (decide (1 < (dotParts subfilename).length) && ((dotParts subfilename).getD 1 [] == "tb".toList)) && cfg.download_tb then true
  else if (decide (1 < (dotParts subfilename).length) && ((dotParts subfilename).getD 1 [] == "txt".toList)) && cfg.download_txt then true
  else if decide ((dotParts subfilename).length = 1) && cfg.download_no_ext then true
  else if ((decide (1 < (dotParts subfilename).length) && strContains ((dotParts subfilename).headD []) "SUVR".toList) && strContains ((dotParts subfilename).getD 1 []) "4dfp".toList) && cfg.download_SUVR4dfp then true
  else if ((decide (1 < (dotParts subfilename).length) && ((dotParts subfilename).headD [] == "T1001".toList)) && strContains ((dotParts subfilename).getD 1 []) "4dfp".toList) && cfg.download_T10014dfp then true
  else if ((decide (1 < (dotParts subfilename).length) && ((dotParts subfilename).headD [] == "petfov".toList)) && strContains ((dotParts subfilename).getD 1 []) "4dfp".toList) && cfg.download_PETFOV then true
  else if ((decide (1 < (dotParts subfilename).length) && ((dotParts subfilename).headD [] == "RSFMask".toList)) && strContains ((dotParts subfilename).getD 1 []) "4dfp".toList) && cfg.download_RSFMask then true
  else if (decide (1 < (dotParts subfilename).length) && strContains ((dotParts subfilename).headD []) "wmparc".toList) && cfg.download_wmparc then true
  else false

/-- Modelled from the spec §4.3: the pup-family discriminant is the second
dot-delimited segment, defined only when the name contains a dot. -/
def pupDiscriminant (subfilename : Str) : Option Str :=
  if 1 < (dotParts subfilename).length
  then some ((dotParts subfilename).getD 1 []) else none

/-- Modelled from the spec §4.3: for the prefix-coded pup categories, the
first and second dot-delimited segments, defined only when the name
contains a dot. -/
def pupLeadSegments (subfilename : Str) : Option (Str × Str) :=
  if 1 < (dotParts subfilename).length
  then some ((dotParts subfilename).headD [], (dotParts subfilename).getD 1 [])
  else none

/-- Modelled from the spec §4.3: the pup entry matches an enabled category
exactly when an umbrella bundle flag applies, or the second-segment
discriminant matches an enabled second-segment category (substring for
4dfp, equality otherwise), or the name has no dot and the no-extension flag
is set, or a prefix-coded category matches the lead segments with its flag
set. -/
def pupSpecMatches (cfg : PupConfig) (resource_name subfilename : Str) : Prop :=
  (cfg.download_logs = true ∧ resource_name = logBundle) ∨
  (cfg.download_snaps = true ∧ resource_name = snapshotsBundle) ∨
  (∃ d, pupDiscriminant subfilename = some d ∧
    (("4dfp".toList <:+: d ∧ cfg.download_4dfp = true) ∨
     (d = "dat".toList ∧ cfg.download_dat = true) ∨
     (d = "info".toList ∧ cfg.download_info = true) ∨
     (d = "log".toList ∧ cfg.download_logs = true) ∨
     (d = "lst".toList ∧ cfg.download_lst = true) ∨
     (d = "mgz".toList ∧ cfg.download_mgz = true) ∨
     (d = "moco".toList ∧ cfg.download_moco = true) ∨
     (d = "nii".toList ∧ cfg.download_nii = true) ∨
     (d = "params".toList ∧ cfg.download_params = true) ∨
     (d = "sub".toList ∧ cfg.download_sub = true) ∨
     (d = "suvr".toList ∧ cfg.download_suvr = true) ∨
     (d = "tac".toList ∧ cfg.download_tac = true) ∨
     (d = "tb".toList ∧ cfg.download_tb = true) ∨
     (d = "txt".toList ∧ cfg.download_txt = true))) ∨
  ((dotParts subfilename).length = 1 ∧ cfg.download_no_ext = true) ∨
  (∃ p, pupLeadSegments subfilename = some p ∧
    (("SUVR".toList <:+: p.1 ∧ ("4dfp".toList <:+: p.2 ∧ cfg.download_SUVR4dfp = true)) ∨
     (p.1 = "T1001".toList ∧ ("4dfp".toList <:+: p.2 ∧ cfg.download_T10014dfp = true)) ∨
     (p.1 = "petfov".toList ∧ ("4dfp".toList <:+: p.2 ∧ cfg.download_PETFOV = true)) ∨
     (p.1 = "RSFMask".toList ∧ ("4dfp".toList <:+: p.2 ∧ cfg.download_RSFMask = true)) ∨
     ("wmparc".toList <:+: p.1 ∧ cfg.download_wmparc = true)))

/-- The pup if/elif chain agrees with the declarative category description
whenever the include-all shortcut is off. -/
theorem pup_chain_iff_spec (cfg : PupConfig) (rn fn : Str)
    (h : pupDownloadAll cfg = false) :
    shouldExtractPup (pupDownloadAll cfg) cfg rn fn = true ↔ pupSpecMatches cfg rn fn := by
  rw [h]
  unfold shouldExtractPup pupSpecMatches pupDiscriminant pupLeadSegments strContains
  simp only [Bool.false_eq_true, if_false, Bool.and_eq_true, decide_eq_true_eq,
    beq_iff_eq, ite_true_eq_true, and_or_left, exists_or, exists_ite_some,
    and_assoc, or_false, or_assoc]

/-- The fixed internal directory of an archive entry,
`resources/{resource_name}/files/`. -/
def resourceFilesDir (resource_name : Str) : Str :=
  "resources/".toList ++ resource_name ++ "/files/".toList

/-- Python `subfilename.split("resources/" + resource_name + "/files/", 1)[1]`:
the relative output path of an entry, or `none` when the marker is absent
(in which case the source raises an uncaught IndexError). -/
def stripEntry (resource_name subfilename : Str) : Option Str :=
  (splitFirstOn (resourceFilesDir resource_name) subfilename).map (fun p => p.2)

/-- The extraction loop of `extract_requested_files` in
`download_freesurfer.py` (lines 356-473): entries are processed in order;
a selected entry is written directly to its stripped relative path; a
selected entry without the internal marker raises (IndexError at line 461),
aborting the loop with the writes so far kept.  Returns the final directory
contents and whether the loop completed without raising. -/
def extractFsRun (download_all : Bool) (cfg : FsConfig) (resource_name : Str) :
    List (Str × Nat) → FileSys → FileSys × Bool
  | [], fs => (fs, true)
  | e :: es, fs =>
    if shouldExtractFs download_all cfg resource_name e.1 then
      match stripEntry resource_name e.1 with
      | some rel => extractFsRun download_all cfg resource_name es (fsWrite fs rel e.2)
      | none => (fs, false)
    else extractFsRun download_all cfg resource_name es fs

/-- The write sequence the freesurfer extraction loop performs (up to the
first raising entry, if any). -/
def fsRunWrites (download_all : Bool) (cfg : FsConfig) (resource_name : Str) :
    List (Str × Nat) → List (Str × Nat)
  | [] => []
  | e :: es =>
    if shouldExtractFs download_all cfg resource_name e.1 then
      match stripEntry resource_name e.1 with
      | some rel => (rel, e.2) :: fsRunWrites download_all cfg resource_name es
      | none => []
    else fsRunWrites download_all cfg resource_name es

/-- Whether the freesurfer extraction loop completes without raising. -/
def fsRunOk (download_all : Bool) (cfg : FsConfig) (resource_name : Str) :
    List (Str × Nat) → Bool
  | [] => true
  | e :: es =>
    if shouldExtractFs download_all cfg resource_name e.1 then
      match stripEntry resource_name e.1 with
      | some _ => fsRunOk download_all cfg resource_name es
      | none => false
    else fsRunOk download_all cfg resource_name es

theorem extractFsRun_spec (download_all : Bool) (cfg : FsConfig) (rn : Str) :
    ∀ (es : List (Str × Nat)) (fs : FileSys),
      extractFsRun download_all cfg rn es fs
        = (applyWrites fs (fsRunWrites download_all cfg rn es),
           fsRunOk download_all cfg rn es) := by
  intro es
  induction es with
  | nil => intro fs; rfl
  | cons e es ih =>
    intro fs
    unfold extractFsRun fsRunWrites fsRunOk
    by_cases h : shouldExtractFs download_all cfg rn e.1 = true
    · simp only [h, if_true]
      cases hs : stripEntry rn e.1 with
      | some rel => simp only [ih]; rfl
      | none => rfl
    · simp only [Bool.not_eq_true] at h
      simp only [h, Bool.false_eq_true, if_false, ih]

theorem shouldExtractFs_all (cfg : FsConfig) (rn fn : Str) :
    shouldExtractFs true cfg rn fn = true := by
  unfold shouldExtractFs
  simp

theorem shouldExtractPup_all (cfg : PupConfig) (rn fn : Str) :
    shouldExtractPup true cfg rn fn = true := by
  unfold shouldExtractPup
  simp

theorem resourceFilesDir_ne_nil (rn : Str) : resourceFilesDir rn ≠ [] := by
  unfold resourceFilesDir
  intro h
  have := congrArg List.length h
  simp [List.length_append] at this

/-- An archive obtained by zipping a directory tree that lies under
`resources/{resource_name}/files/`. -/
def zipOfTree (resource_name : Str) (tree : List (Str × Nat)) : List (Str × Nat) :=
  tree.map (fun e => (resourceFilesDir resource_name ++ e.1, e.2))

theorem stripEntry_zip (rn r : Str) :
    stripEntry rn (resourceFilesDir rn ++ r) = some r := by
  unfold stripEntry
  rw [splitFirstOn_of_starts (resourceFilesDir_ne_nil rn)]
  rfl

theorem extractFsRun_zip (cfg : FsConfig) (rn : Str) (tree : List (Str × Nat)) :
    ∀ fs, extractFsRun true cfg rn (zipOfTree rn tree) fs = (applyWrites fs tree, true) := by
  induction tree with
  | nil => intro fs; rfl
  | cons e tree ih =>
    intro fs
    show extractFsRun true cfg rn ((resourceFilesDir rn ++ e.1, e.2) :: zipOfTree rn tree) fs = _
    unfold extractFsRun
    simp only [shouldExtractFs_all, if_true, stripEntry_zip, ih]
    rfl

/-- Python `subfilename.split("/", 1)[0]`: the first slash component. -/
def firstSlashComp (p : Str) : Str := headBeforeFirst ['/'] p

/-- Python `p.rsplit("/", 1)[0]` guarded by `p.count('/') > 0`
(lines 366-368 of `download_pup.py`): the directory part of a relative
path, empty when the path has no slash. -/
def relDirOf (rel : Str) : Str :=
  if '/' ∈ rel then
    match splitFirstOn ['/'] rel.reverse with
    | some q => q.2.reverse
    | none => rel
  else []

/-- Python `os.path.basename`, used implicitly by `shutil.move` when the
destination is a directory: the part after the last slash. -/
def basenameOf (p : Str) : Str :=
  match splitFirstOn ['/'] p.reverse with
  | some q => q.1.reverse
  | none => p

/-- Joining a relative directory and a file name, with
`os.path.join(root, "")` collapsing to the root itself. -/
def joinRel (d b : Str) : Str := if d = [] then b else d ++ ['/'] ++ b

/-- Where `shutil.move` in `download_pup.py` (line 374) puts the scratch
file: the code-computed `new_file_location` directory joined with the
basename of the moved file. -/
def pupFinalPath (subfilename rel : Str) : Str :=
  joinRel (relDirOf rel) (basenameOf subfilename)

/-- Python `Path(...).parent` for the freesurfer mkdir call. -/
def parentDirOf (p : Str) : Str :=
  match splitFirstOn ['/'] p.reverse with
  | some q => q.2.reverse
  | none => []

/-- File-system operations performed by the extraction loops. -/
inductive ExtractOp where
  | writeFile : Str → Nat → ExtractOp
  | makeDirs : Str → ExtractOp
  | moveFile : Str → Str → ExtractOp
  | removeTree : Str → ExtractOp
deriving DecidableEq

/-- Whether `shutil.rmtree` on directory `d` removes the file at `p`. -/
def dirCovers (d p : Str) : Bool := (d == p) || (d ++ ['/']).isPrefixOf p

/-- Effect of one operation on the directory contents. -/
def evalOp (fs : FileSys) : ExtractOp → FileSys
  | .writeFile p c => fsWrite fs p c
  | .makeDirs _ => fs
  | .moveFile src dst =>
    match fsGet fs src with
    | some c => fsWrite (fs.filter (fun e => ¬ (e.1 = src))) dst c
    | none => fs
  | .removeTree d => fs.filter (fun e => ¬ (dirCovers d e.1 = true))

/-- Effect of an operation sequence. -/
def evalOps (fs : FileSys) : List ExtractOp → FileSys
  | [] => fs
  | op :: ops => evalOps (evalOp fs op) ops

/-- Operations of `download_freesurfer.py`'s loop for one entry
(lines 456-473): nothing for a skipped entry; for a selected entry, create
the parent directory and copy the decompressed bytes directly to the final
relative path. -/
def fsEntryOps (download_all : Bool) (cfg : FsConfig) (rn : Str)
    (e : Str × Nat) : List ExtractOp :=
  if shouldExtractFs download_all cfg rn e.1 then
    match stripEntry rn e.1 with
    | some rel => [.makeDirs (parentDirOf rel), .writeFile rel e.2]
    | none => []
  else []

/-- Operations of `download_pup.py`'s loop for one selected conforming
entry (lines 355-379): extract to the scratch path equal to the full entry
name, create the target directory, move the scratch file to its final
path, and remove the scratch root. -/
def pupEntryOpsCore (e : Str × Nat) (rel : Str) : List ExtractOp :=
  [.writeFile e.1 e.2, .makeDirs (relDirOf rel),
   .moveFile e.1 (pupFinalPath e.1 rel), .removeTree (firstSlashComp e.1)]

/-- Operations of `download_pup.py`'s loop for one entry, including the
skipped case and the raising case (the scratch extraction at line 358
happens before the IndexError at line 362). -/
def pupEntryOps (download_all : Bool) (cfg : PupConfig) (rn : Str)
    (e : Str × Nat) : List ExtractOp :=
  if shouldExtractPup download_all cfg rn e.1 then
    match stripEntry rn e.1 with
    | some rel => pupEntryOpsCore e rel
    | none => [.writeFile e.1 e.2]
  else []

/-- The extraction loop of `extract_requested_files` in `download_pup.py`
(lines 293-379): per selected entry, extract-to-scratch, move, and remove
the scratch root; a selected entry without the internal marker leaves its
scratch file behind and aborts the loop (IndexError at line 362). -/
def pupExtractRun (download_all : Bool) (cfg : PupConfig) (rn : Str) :
    List (Str × Nat) → FileSys → FileSys × Bool
  | [], fs => (fs, true)
  | e :: es, fs =>
    if shouldExtractPup download_all cfg rn e.1 then
      match stripEntry rn e.1 with
      | some rel =>
        pupExtractRun download_all cfg rn es (evalOps fs (pupEntryOpsCore e rel))
      | none => (fsWrite fs e.1 e.2, false)
    else pupExtractRun download_all cfg rn es fs

/-- The write sequence the pup extraction loop is equivalent to, per entry
its final path (or its scratch path for the raising entry). -/
def pupRunWrites (download_all : Bool) (cfg : PupConfig) (rn : Str) :
    List (Str × Nat) → List (Str × Nat)
  | [] => []
  | e :: es =>
    if shouldExtractPup download_all cfg rn e.1 then
      match stripEntry rn e.1 with
      | some rel => (pupFinalPath e.1 rel, e.2) :: pupRunWrites download_all cfg rn es
      | none => [(e.1, e.2)]
    else pupRunWrites download_all cfg rn es

/-- Whether the pup extraction loop completes without raising. -/
def pupRunOk (download_all : Bool) (cfg : PupConfig) (rn : Str) :
    List (Str × Nat) → Bool
  | [] => true
  | e :: es =>
    if shouldExtractPup download_all cfg rn e.1 then
      match stripEntry rn e.1 with
      | some _ => pupRunOk download_all cfg rn es
      | none => false
    else pupRunOk download_all cfg rn es

theorem dirCovers_self_firstSlashComp (p : Str) :
    dirCovers (firstSlashComp p) p = true := by
  rcases h : splitFirstOn ['/'] p with _ | q
  · have h1 : firstSlashComp p = p := by
      unfold firstSlashComp headBeforeFirst
      rw [h]
    simp [dirCovers, h1]
  · have h1 : firstSlashComp p = q.1 := by
      unfold firstSlashComp headBeforeFirst
      rw [h]
    have hp : p = q.1 ++ ['/'] ++ q.2 := splitFirstOn_eq_append h
    have h2 : (q.1 ++ ['/']).isPrefixOf p = true := by
      apply List.isPrefixOf_iff_prefix.mpr
      exact ⟨q.2, by rw [hp]⟩
    simp [dirCovers, h1, h2]

theorem mem_fsWrite {fs : FileSys} {p : Str} {c : Nat} :
    ∀ x ∈ fsWrite fs p c, x ∈ fs ∨ x = (p, c) := by
  intro x hx
  unfold fsWrite at hx
  rcases List.mem_append.mp hx with h | h
  · exact Or.inl (List.mem_of_mem_filter h)
  · exact Or.inr (by simpa using h)

theorem fsGet_append_single {fs : FileSys} {p : Str} {c : Nat}
    (h : ∀ x ∈ fs, x.1 ≠ p) : fsGet (fs ++ [(p, c)]) p = some c := by
  induction fs with
  | nil => simp [fsGet, List.find?]
  | cons y fs ih =>
    have hy : y.1 ≠ p := h y (by simp)
    have hrest : ∀ x ∈ fs, x.1 ≠ p := fun x hx => h x (by simp [hx])
    unfold fsGet at ih ⊢
    simp only [List.cons_append, List.find?]
    have : (y.1 == p) = false := by simpa using hy
    rw [this]
    exact ih hrest

theorem filter_ne_of_forall_ne {fs : FileSys} {p : Str}
    (h : ∀ x ∈ fs, x.1 ≠ p) :
    fs.filter (fun e => ¬ (e.1 = p)) = fs := by
  apply List.filter_eq_self.mpr
  intro a ha
  simpa using h a ha

theorem evalOps_pupEntryCore (fs : FileSys) (e : Str × Nat) (rel : Str)
    (hA : ∀ x ∈ fs, dirCovers (firstSlashComp e.1) x.1 = false)
    (hB : dirCovers (firstSlashComp e.1) (pupFinalPath e.1 rel) = false) :
    evalOps fs (pupEntryOpsCore e rel) = fsWrite fs (pupFinalPath e.1 rel) e.2 := by
  have hne : ∀ x ∈ fs, x.1 ≠ e.1 := by
    intro x hx heq
    have hcov := hA x hx
    rw [heq, dirCovers_self_firstSlashComp] at hcov
    simp at hcov
  have hw : fsWrite fs e.1 e.2 = fs ++ [(e.1, e.2)] := by
    unfold fsWrite
    rw [filter_ne_of_forall_ne hne]
  have hmove : evalOp (fs ++ [(e.1, e.2)]) (.moveFile e.1 (pupFinalPath e.1 rel))
      = fsWrite fs (pupFinalPath e.1 rel) e.2 := by
    simp only [evalOp]
    rw [fsGet_append_single hne]
    have hfil : (fs ++ [(e.1, e.2)]).filter (fun x => ¬ (x.1 = e.1)) = fs := by
      rw [List.filter_append, filter_ne_of_forall_ne hne]
      simp
    dsimp only
    rw [hfil]
  have hrm : evalOp (fsWrite fs (pupFinalPath e.1 rel) e.2)
      (.removeTree (firstSlashComp e.1)) = fsWrite fs (pupFinalPath e.1 rel) e.2 := by
    simp only [evalOp]
    unfold fsWrite
    rw [List.filter_append, List.filter_filter]
    have h1 : (fs.filter (fun x =>
        decide ¬ (dirCovers (firstSlashComp e.1) x.1 = true) &&
          decide ¬ (x.1 = pupFinalPath e.1 rel))) =
        fs.filter (fun x => ¬ (x.1 = pupFinalPath e.1 rel)) := by
      apply List.filter_congr
      intro a ha
      simp [hA a ha]
    have h2 : ([(pupFinalPath e.1 rel, e.2)] : FileSys).filter
        (fun x => ¬ (dirCovers (firstSlashComp e.1) x.1 = true))
        = [(pupFinalPath e.1 rel, e.2)] := by
      simp [List.filter, hB]
    rw [h1, h2]
  calc evalOps fs (pupEntryOpsCore e rel)
      = evalOp (evalOp (fsWrite fs e.1 e.2)
          (.moveFile e.1 (pupFinalPath e.1 rel))) (.removeTree (firstSlashComp e.1)) := rfl
    _ = evalOp (evalOp (fs ++ [(e.1, e.2)])
          (.moveFile e.1 (pupFinalPath e.1 rel))) (.removeTree (firstSlashComp e.1)) := by rw [hw]
    _ = evalOp (fsWrite fs (pupFinalPath e.1 rel) e.2)
          (.removeTree (firstSlashComp e.1)) := by rw [hmove]
    _ = fsWrite fs (pupFinalPath e.1 rel) e.2 := hrm

theorem pupExtractRun_spec (download_all : Bool) (cfg : PupConfig) (rn : Str) :
    ∀ (es : List (Str × Nat)) (fs : FileSys),
      (∀ x ∈ fs, ∀ e ∈ es, shouldExtractPup download_all cfg rn e.1 = true →
        dirCovers (firstSlashComp e.1) x.1 = false) →
      (∀ e ∈ es, ∀ e' ∈ es, shouldExtractPup download_all cfg rn e.1 = true →
        shouldExtractPup download_all cfg rn e'.1 = true →
        ∀ rel, stripEntry rn e.1 = some rel →
          dirCovers (firstSlashComp e'.1) (pupFinalPath e.1 rel) = false) →
      pupExtractRun download_all cfg rn es fs
        = (applyWrites fs (pupRunWrites download_all cfg rn es),
           pupRunOk download_all cfg rn es) := by
  intro es
  induction es with
  | nil => intro fs _ _; rfl
  | cons e es ih =>
    intro fs hfs hff
    unfold pupExtractRun pupRunWrites pupRunOk
    by_cases hsel : shouldExtractPup download_all cfg rn e.1 = true
    · simp only [hsel, if_true]
      cases hs : stripEntry rn e.1 with
      | some rel =>
        dsimp only
        have hA : ∀ x ∈ fs, dirCovers (firstSlashComp e.1) x.1 = false :=
          fun x hx => hfs x hx e (by simp) hsel
        have hB : dirCovers (firstSlashComp e.1) (pupFinalPath e.1 rel) = false :=
          hff e (by simp) e (by simp) hsel hsel rel hs
        rw [evalOps_pupEntryCore fs e rel hA hB]
        have hrec := ih (fsWrite fs (pupFinalPath e.1 rel) e.2)
          (by
            intro x hx e2 he2 hsel2
            rcases mem_fsWrite x hx with hmem | hmem
            · exact hfs x hmem e2 (by simp [he2]) hsel2
            · rw [hmem]
              exact hff e (by simp) e2 (by simp [he2]) hsel hsel2 rel hs)
          (by
            intro e1 he1 e2 he2 hsel1 hsel2 rel1 hs1
            exact hff e1 (by simp [he1]) e2 (by simp [he2]) hsel1 hsel2 rel1 hs1)
        rw [hrec]
        rfl
      | none => rfl
    · simp only [Bool.not_eq_true] at hsel
      simp only [hsel, Bool.false_eq_true, if_false]
      exact ih fs
        (fun x hx e2 he2 hsel2 => hfs x hx e2 (by simp [he2]) hsel2)
        (fun e1 he1 e2 he2 hsel1 hsel2 rel1 hs1 =>
          hff e1 (by simp [he1]) e2 (by simp [he2]) hsel1 hsel2 rel1 hs1)

/-- The resource bundles fetched per identifier in `download_one_fs`
(`download_freesurfer.py` lines 528-534), driven by the flags and the
precomputed include-all indicator. -/
def fsResourceList (download_all : Bool) (cfg : FsConfig) : List Str :=
  (if cfg.download_snaps || download_all then [snapshotsBundle] else []) ++
  (if cfg.download_logs || download_all then [logBundle] else []) ++
  (if download_all || cfg.download_annot || cfg.download_area ||
      cfg.download_avg_curv || cfg.download_bak || cfg.download_cmd ||
      cfg.download_crv || cfg.download_csurfdir || cfg.download_ctab ||
      cfg.download_curv || cfg.download_dat || cfg.download_defect_borders ||
      cfg.download_defect_chull || cfg.download_defect_labels ||
      cfg.download_done || cfg.download_env || cfg.download_H ||
      cfg.download_inflated || cfg.download_jacobian_white || cfg.download_K ||
      cfg.download_label || cfg.download_local_copy || cfg.download_logs ||
      cfg.download_lta || cfg.download_m3z || cfg.download_mgh ||
      cfg.download_mgz || cfg.download_mid || cfg.download_nofix ||
      cfg.download_old || cfg.download_orig || cfg.download_pial ||
      cfg.download_reg || cfg.download_smoothwm || cfg.download_sphere ||
      cfg.download_stats || cfg.download_sulc || cfg.download_thickness ||
      cfg.download_touch || cfg.download_txt || cfg.download_volume ||
      cfg.download_white || cfg.download_xdebug_mris_calc || cfg.download_xfm
   then [dataBundle] else [])

/-- Per-(identifier, bundle) outcome classification. -/
inductive BundleOutcome where
  | success : BundleOutcome
  | errorCode : Nat → BundleOutcome
  | invalidArchive : BundleOutcome
deriving DecidableEq

/-- What the orchestrator did for one bundle: the recorded outcome, whether
`extract_requested_files` was invoked, and whether the temporary archive
file was deleted. -/
structure BundleResult where
  outcome : BundleOutcome
  extractAttempted : Bool
  tempDeleted : Bool
deriving DecidableEq

/-- The post-fetch dispatch of `download_one_fs` (`download_freesurfer.py`
lines 551-572) and `download_one_scan` (`download_scans.py` lines
290-311): 200 with a valid zip extracts and deletes the temporary file;
a non-200 status records the code; 200 with an invalid zip records an
invalid archive, with no extraction and no deletion. -/
def dispatchBundle (status : Nat) (validZip : Bool) : BundleResult :=
  if (status == 200) && validZip then ⟨.success, true, true⟩
  else if !(status == 200) then ⟨.errorCode status, false, false⟩
  else ⟨.invalidArchive, false, false⟩

/-- The bundle loop (one identifier): every attempted bundle is dispatched
independently and processing always continues to the next one. -/
def processBundles (attempts : List (Nat × Bool)) : List BundleResult :=
  attempts.map (fun a => dispatchBundle a.1 a.2)

/-- The family delimiter of the freesurfer scripts. -/
def fsDelim : Str := "_freesurfer_".toList

/-- The family delimiter of the pup scripts. -/
def pupDelim : Str := "_PUPTIMECOURSE_".toList

/-- Parent resolution of `download_one_fs` (line 516-518):
`assessor_id.split("_freesurfer_")[0]`. -/
def fsResolveParent (assessor_id : Str) : Str := headBeforeFirst fsDelim assessor_id

/-- Parent resolution of `download_one_pup` (line 425-427):
`assessor_id.split("_PUPTIMECOURSE_")[0]`. -/
def pupResolveParent (assessor_id : Str) : Str := headBeforeFirst pupDelim assessor_id

/-- The per-entry selections of a whole freesurfer run over several
archives: the include-all indicator is computed once, before any archive is
processed, and the same value drives every per-entry decision of the run. -/
def fsRunSelections (cfg : FsConfig) (archives : List (Str × List (Str × Nat))) :
    List (List (Str × Nat)) :=
  let download_all := fsDownloadAll cfg
  archives.map (fun a => a.2.filter (fun e => shouldExtractFs download_all cfg a.1 e.1))

/-- The filtered subset of an archive with stripped relative paths: what a
complete freesurfer extraction writes. -/
def fsFilteredWrites (download_all : Bool) (cfg : FsConfig) (rn : Str)
    (es : List (Str × Nat)) : List (Str × Nat) :=
  es.filterMap (fun e =>
    if shouldExtractFs download_all cfg rn e.1 then
      (stripEntry rn e.1).map (fun rel => (rel, e.2))
    else none)

theorem fsRunOk_of_conforming (download_all : Bool) (cfg : FsConfig) (rn : Str) :
    ∀ es : List (Str × Nat),
      (∀ e ∈ es, shouldExtractFs download_all cfg rn e.1 = true →
        (stripEntry rn e.1).isSome = true) →
      fsRunOk download_all cfg rn es = true := by
  intro es
  induction es with
  | nil => intro _; rfl
  | cons e es ih =>
    intro h
    unfold fsRunOk
    by_cases hsel : shouldExtractFs download_all cfg rn e.1 = true
    · simp only [hsel, if_true]
      cases hs : stripEntry rn e.1 with
      | some rel => exact ih (fun x hx hb => h x (by simp [hx]) hb)
      | none =>
        have := h e (by simp) hsel
        rw [hs] at this
        simp at this
    · simp only [Bool.not_eq_true] at hsel
      simp only [hsel, Bool.false_eq_true, if_false]
      exact ih (fun x hx hb => h x (by simp [hx]) hb)

theorem fsRunWrites_of_conforming (download_all : Bool) (cfg : FsConfig) (rn : Str) :
    ∀ es : List (Str × Nat),
      (∀ e ∈ es, shouldExtractFs download_all cfg rn e.1 = true →
        (stripEntry rn e.1).isSome = true) →
      fsRunWrites download_all cfg rn es = fsFilteredWrites download_all cfg rn es := by
  intro es
  induction es with
  | nil => intro _; rfl
  | cons e es ih =>
    intro h
    unfold fsRunWrites fsFilteredWrites
    by_cases hsel : shouldExtractFs download_all cfg rn e.1 = true
    · simp only [hsel, if_true]
      cases hs : stripEntry rn e.1 with
      | some rel =>
        simp only [List.filterMap_cons, hsel, if_true, hs, Option.map_some']
        have := ih (fun x hx hb => h x (by simp [hx]) hb)
        unfold fsFilteredWrites at this
        rw [this]
      | none =>
        have := h e (by simp) hsel
        rw [hs] at this
        simp at this
    · simp only [Bool.not_eq_true] at hsel
      simp only [hsel, Bool.false_eq_true, if_false]
      simp only [List.filterMap_cons, hsel, Bool.false_eq_true, if_false]
      have := ih (fun x hx hb => h x (by simp [hx]) hb)
      unfold fsFilteredWrites at this
      rw [this]

/-- No freesurfer flag set (the include-all run). -/
def fsCfgEmpty : FsConfig := {}

/-- Only the pial flag set. -/
def fsCfgPial : FsConfig := { download_pial := true }

/-- Only the done flag set. -/
def fsCfgDone : FsConfig := { download_done := true }

/-- No pup flag set (the include-all run). -/
def pupCfgEmpty : PupConfig := {}

/-- Only the dat flag set. -/
def pupCfgDat : PupConfig := { download_dat := true }

/-- Only the T10014dfp flag set. -/
def pupCfgT1001 : PupConfig := { download_T10014dfp := true }

/-- Only the RSFMask flag set. -/
def pupCfgRSFMask : PupConfig := { download_RSFMask := true }

/-- C1: for every filter configuration with at least one category flag set
(include-all off), the if/elif chain of `extract_requested_files` returns
true exactly for entries whose family discriminant matches an enabled
category or whose bundle is the umbrella LOG/SNAPSHOTS bundle with the
corresponding flag set, and false for every other entry — for both the
freesurfer and the pup family. -/
theorem c1_filter_true_iff_enabled_category (cfgF : FsConfig) (cfgP : PupConfig)
    (rn fn : Str) :
    (fsDownloadAll cfgF = false →
      (shouldExtractFs (fsDownloadAll cfgF) cfgF rn fn = true ↔ fsSpecMatches cfgF rn fn)) ∧
    (pupDownloadAll cfgP = false →
      (shouldExtractPup (pupDownloadAll cfgP) cfgP rn fn = true ↔ pupSpecMatches cfgP rn fn)) :=
  ⟨fs_chain_iff_spec cfgF rn fn, pup_chain_iff_spec cfgP rn fn⟩

/-- Witness for C1 at concrete configurations and entry names. -/
theorem c1_filter_true_iff_enabled_category_witness :
    fsDownloadAll fsCfgPial = false ∧
    (shouldExtractFs (fsDownloadAll fsCfgPial) fsCfgPial dataBundle
        "resources/DATA/files/surf/lh.pial".toList = true ↔
      fsSpecMatches fsCfgPial dataBundle "resources/DATA/files/surf/lh.pial".toList) ∧
    pupDownloadAll pupCfgDat = false ∧
    (shouldExtractPup (pupDownloadAll pupCfgDat) pupCfgDat dataBundle
        "resources/DATA/files/pet_proc/a.dat".toList = true ↔
      pupSpecMatches pupCfgDat dataBundle "resources/DATA/files/pet_proc/a.dat".toList) :=
  ⟨by decide,
   (c1_filter_true_iff_enabled_category fsCfgPial pupCfgDat dataBundle
      "resources/DATA/files/surf/lh.pial".toList).1 (by decide),
   by decide,
   (c1_filter_true_iff_enabled_category fsCfgPial pupCfgDat dataBundle
      "resources/DATA/files/pet_proc/a.dat".toList).2 (by decide)⟩

/-- C2: extracting an archive built by zipping a tree that lies under
`resources/{bundle}/files/` with the include-all configuration into an
empty output root reproduces the original relative tree exactly. -/
theorem c2_roundtrip_include_all (cfg : FsConfig) (rn : Str)
    (tree : List (Str × Nat)) (hall : fsDownloadAll cfg = true)
    (hnd : (tree.map Prod.fst).Nodup) :
    extractFsRun (fsDownloadAll cfg) cfg rn (zipOfTree rn tree) [] = (tree, true) := by
  rw [hall, extractFsRun_zip, applyWrites_nodup_eq tree hnd]

/-- Witness for C2 at a concrete two-file tree. -/
theorem c2_roundtrip_include_all_witness :
    fsDownloadAll fsCfgEmpty = true ∧
    (([("surf/lh.pial".toList, (7 : Nat)), ("mri/T1.mgz".toList, 8)].map Prod.fst).Nodup) ∧
    extractFsRun (fsDownloadAll fsCfgEmpty) fsCfgEmpty dataBundle
      (zipOfTree dataBundle [("surf/lh.pial".toList, 7), ("mri/T1.mgz".toList, 8)]) []
      = ([("surf/lh.pial".toList, 7), ("mri/T1.mgz".toList, 8)], true) :=
  ⟨by decide, by decide,
   c2_roundtrip_include_all fsCfgEmpty dataBundle
     [("surf/lh.pial".toList, 7), ("mri/T1.mgz".toList, 8)] (by decide) (by decide)⟩

/-- C3: when no category flag is set the implied policy is include
everything: the include-all indicator is computed once, before any archive
of the run is processed (the single `let` in `fsRunSelections`), and with
it every entry of every archive of the run is selected. -/
theorem c3_include_all_selects_everything (cfg : FsConfig)
    (h : fsDownloadAll cfg = true)
    (archives : List (Str × List (Str × Nat))) :
    fsRunSelections cfg archives = archives.map (fun a => a.2) := by
  have hall : ∀ a : Str × List (Str × Nat),
      a.2.filter (fun e => shouldExtractFs true cfg a.1 e.1) = a.2 := by
    intro a
    apply List.filter_eq_self.mpr
    intro e _
    exact shouldExtractFs_all cfg a.1 e.1
  unfold fsRunSelections
  rw [h]
  simp only [hall]

/-- Witness for C3 at a concrete two-archive run. -/
theorem c3_include_all_selects_everything_witness :
    fsDownloadAll fsCfgEmpty = true ∧
    fsRunSelections fsCfgEmpty
      [(dataBundle, [("x.pial".toList, (1 : Nat))]), (logBundle, [("y.log".toList, 2)])]
      = [[("x.pial".toList, 1)], [("y.log".toList, 2)]] :=
  ⟨by decide,
   (c3_include_all_selects_everything fsCfgEmpty (by decide)
     [(dataBundle, [("x.pial".toList, 1)]), (logBundle, [("y.log".toList, 2)])]).trans
     (by decide)⟩

/-- C4: parent resolution returns everything before the first occurrence of
the family delimiter (the head of Python's `split`), the returned token is
minimal over all decompositions, the identifier is returned unchanged when
the delimiter is absent, and the documented freesurfer example holds. -/
theorem c4_resolve_parent_first_occurrence :
    (∀ delim id b a, splitFirstOn delim id = some (b, a) →
      headBeforeFirst delim id = b ∧ id = b ++ delim ++ a ∧
      ∀ b' a', id = b' ++ delim ++ a' → b.length ≤ b'.length) ∧
    (∀ delim id, (¬ ∃ b a, id = b ++ delim ++ a) → headBeforeFirst delim id = id) ∧
    fsResolveParent "CNDA_E12345_freesurfer_2017101912345".toList = "CNDA_E12345".toList ∧
    pupResolveParent "CNDA_E12345_PUPTIMECOURSE_2017101912345".toList = "CNDA_E12345".toList := by
  refine ⟨?_, ?_, by decide, by decide⟩
  · intro delim id b a h
    refine ⟨?_, splitFirstOn_eq_append h, splitFirstOn_minimal h⟩
    unfold headBeforeFirst
    rw [h]
  · intro delim id h
    unfold headBeforeFirst
    cases hs : splitFirstOn delim id with
    | none => rfl
    | some q => exact absurd ⟨q.1, q.2, splitFirstOn_eq_append (by rw [hs])⟩ h

/-- Witness for C4 at the documented identifier and at one with no
delimiter. -/
theorem c4_resolve_parent_first_occurrence_witness :
    headBeforeFirst fsDelim "CNDA_E12345_freesurfer_2017101912345".toList
      = "CNDA_E12345".toList ∧
    "CNDA_E12345_freesurfer_2017101912345".toList
      = "CNDA_E12345".toList ++ fsDelim ++ "2017101912345".toList ∧
    headBeforeFirst fsDelim "CNDA_E12345".toList = "CNDA_E12345".toList :=
  ⟨(c4_resolve_parent_first_occurrence.1 fsDelim
      "CNDA_E12345_freesurfer_2017101912345".toList
      "CNDA_E12345".toList "2017101912345".toList (by decide)).1,
   (c4_resolve_parent_first_occurrence.1 fsDelim
      "CNDA_E12345_freesurfer_2017101912345".toList
      "CNDA_E12345".toList "2017101912345".toList (by decide)).2.1,
   c4_resolve_parent_first_occurrence.2.1 fsDelim "CNDA_E12345".toList
     (splitFirstOn_none (by decide))⟩

/-- Counterexample to C5: an archive whose first entry lacks the internal
marker under the include-all configuration.  The loop raises at that entry
and the remaining conforming entry is never extracted, so the entry is not
skipped and extraction does not continue. -/
theorem c5_counterexample_abort_not_skip :
    extractFsRun (fsDownloadAll fsCfgEmpty) fsCfgEmpty dataBundle
      [("stray.txt".toList, 1), ("resources/DATA/files/ok.txt".toList, 2)] []
      = ([], false) := by decide

/-- C5 amended: a selected entry whose internal path lacks the
`resources/{bundle}/files/` marker makes `extract_requested_files` raise an
uncaught IndexError at that entry: the writes made so far are kept, the
remaining entries of the archive are not processed, and the failure
propagates out of the extraction (it is not a per-entry skip). -/
theorem c5_amended_missing_marker_aborts
    (download_all : Bool) (cfg : FsConfig) (rn : Str)
    (es1 es2 : List (Str × Nat)) (e : Str × Nat) (fs0 fs1 : FileSys)
    (h1 : extractFsRun download_all cfg rn es1 fs0 = (fs1, true))
    (hsel : shouldExtractFs download_all cfg rn e.1 = true)
    (hnone : stripEntry rn e.1 = none) :
    extractFsRun download_all cfg rn (es1 ++ e :: es2) fs0 = (fs1, false) := by
  induction es1 generalizing fs0 with
  | nil =>
    have hfs : fs0 = fs1 := by
      have h0 : extractFsRun download_all cfg rn [] fs0 = (fs0, true) := rfl
      rw [h0] at h1
      exact (Prod.mk.injEq _ _ _ _).mp h1 |>.1
    simp only [List.nil_append]
    unfold extractFsRun
    simp only [hsel, if_true, hnone]
    rw [hfs]
  | cons x es1 ih =>
    simp only [List.cons_append]
    unfold extractFsRun at h1 ⊢
    by_cases hx : shouldExtractFs download_all cfg rn x.1 = true
    · simp only [hx, if_true] at h1 ⊢
      cases hsx : stripEntry rn x.1 with
      | some relx =>
        rw [hsx] at h1
        dsimp only at h1 ⊢
        exact ih (fsWrite fs0 relx x.2) h1
      | none =>
        rw [hsx] at h1
        simp at h1
    · simp only [Bool.not_eq_true] at hx
      simp only [hx, Bool.false_eq_true, if_false] at h1 ⊢
      exact ih fs0 h1

/-- Witness for C5's amended statement at a concrete archive. -/
theorem c5_amended_missing_marker_aborts_witness :
    extractFsRun (fsDownloadAll fsCfgEmpty) fsCfgEmpty dataBundle
      [("resources/DATA/files/first.txt".toList, 3), ("stray.txt".toList, 1),
       ("resources/DATA/files/ok.txt".toList, 2)] []
      = ([("first.txt".toList, 3)], false) :=
  c5_amended_missing_marker_aborts (fsDownloadAll fsCfgEmpty) fsCfgEmpty dataBundle
    [("resources/DATA/files/first.txt".toList, 3)]
    [("resources/DATA/files/ok.txt".toList, 2)]
    ("stray.txt".toList, 1) [] [("first.txt".toList, 3)]
    (by decide) (by decide) (by decide)

/-- C7: a fetch that returns HTTP 200 with a body that is not a valid zip
records an invalid-archive outcome, does not attempt extraction, does not
delete the temporary file, and the bundle loop continues with the
remaining bundles. -/
theorem c7_invalid_archive_no_extract_no_delete (status : Nat) (validZip : Bool)
    (pre post : List (Nat × Bool)) (h200 : status = 200) (hbad : validZip = false) :
    dispatchBundle status validZip
      = ⟨BundleOutcome.invalidArchive, false, false⟩ ∧
    processBundles (pre ++ (status, validZip) :: post)
      = processBundles pre
        ++ ⟨BundleOutcome.invalidArchive, false, false⟩ :: processBundles post := by
  subst h200 hbad
  refine ⟨by decide, ?_⟩
  unfold processBundles
  rw [List.map_append, List.map_cons]
  rfl

/-- Witness for C7 at a concrete bundle loop. -/
theorem c7_invalid_archive_no_extract_no_delete_witness :
    dispatchBundle 200 false = ⟨BundleOutcome.invalidArchive, false, false⟩ ∧
    processBundles [(200, true), (200, false), (404, false)]
      = processBundles [(200, true)]
        ++ ⟨BundleOutcome.invalidArchive, false, false⟩ :: processBundles [(404, false)] :=
  c7_invalid_archive_no_extract_no_delete 200 false [(200, true)] [(404, false)]
    (by decide) (by decide)

/-- C8 is a code bug: the pup chain compares the first dot-segment of the
FULL entry path with the exact prefix, so `resources/DATA/files/T1001.4dfp.hdr`
is not selected when only the T10014dfp flag is set (its first dot-segment
is `resources/DATA/files/T1001`), and likewise for RSFMask; the rule fires
only for a path with no directory part, which cannot carry the required
internal marker. -/
theorem c8_t1001_rule_never_matches_prefixed_entries :
    shouldExtractPup (pupDownloadAll pupCfgT1001) pupCfgT1001 dataBundle
      "resources/DATA/files/T1001.4dfp.hdr".toList = false ∧
    shouldExtractPup (pupDownloadAll pupCfgRSFMask) pupCfgRSFMask dataBundle
      "resources/DATA/files/RSFMask.4dfp.img".toList = false ∧
    shouldExtractPup (pupDownloadAll pupCfgT1001) pupCfgT1001 dataBundle
      "T1001.4dfp.hdr".toList = true ∧
    (dotParts "resources/DATA/files/T1001.4dfp.hdr".toList).headD []
      = "resources/DATA/files/T1001".toList := by decide

/-- C10: with only the done flag set, the include-all default is defeated
and the DATA bundle is fetched, yet the filter chain has no rule for the
done discriminant, so no entry of any archive is ever selected. -/
theorem c10_done_flag_fetches_data_but_extracts_nothing :
    fsDownloadAll fsCfgDone = false ∧
    fsResourceList (fsDownloadAll fsCfgDone) fsCfgDone = [dataBundle] ∧
    ∀ rn fn, shouldExtractFs (fsDownloadAll fsCfgDone) fsCfgDone rn fn = false := by
  refine ⟨by decide, by decide, ?_⟩
  intro rn fn
  have h : fsDownloadAll fsCfgDone = false := by decide
  rw [h]
  unfold shouldExtractFs
  simp [fsCfgDone]

theorem pupRunOk_of_conforming (download_all : Bool) (cfg : PupConfig) (rn : Str) :
    ∀ es : List (Str × Nat),
      (∀ e ∈ es, shouldExtractPup download_all cfg rn e.1 = true →
        (stripEntry rn e.1).isSome = true) →
      pupRunOk download_all cfg rn es = true := by
  intro es
  induction es with
  | nil => intro _; rfl
  | cons e es ih =>
    intro h
    unfold pupRunOk
    by_cases hsel : shouldExtractPup download_all cfg rn e.1 = true
    · simp only [hsel, if_true]
      cases hs : stripEntry rn e.1 with
      | some rel => exact ih (fun x hx hb => h x (by simp [hx]) hb)
      | none =>
        have := h e (by simp) hsel
        rw [hs] at this
        simp at this
    · simp only [Bool.not_eq_true] at hsel
      simp only [hsel, Bool.false_eq_true, if_false]
      exact ih (fun x hx hb => h x (by simp [hx]) hb)

theorem pupRunWrites_paths (download_all : Bool) (cfg : PupConfig) (rn : Str) :
    ∀ es : List (Str × Nat),
      (∀ e ∈ es, shouldExtractPup download_all cfg rn e.1 = true →
        (stripEntry rn e.1).isSome = true) →
      ∀ w ∈ pupRunWrites download_all cfg rn es, ∃ e ∈ es, ∃ rel,
        shouldExtractPup download_all cfg rn e.1 = true ∧
        stripEntry rn e.1 = some rel ∧ w.1 = pupFinalPath e.1 rel := by
  intro es
  induction es with
  | nil => intro _ w hw; simp [pupRunWrites] at hw
  | cons e es ih =>
    intro h w hw
    unfold pupRunWrites at hw
    by_cases hsel : shouldExtractPup download_all cfg rn e.1 = true
    · simp only [hsel, if_true] at hw
      cases hs : stripEntry rn e.1 with
      | some rel =>
        rw [hs] at hw
        dsimp only at hw
        rcases List.mem_cons.mp hw with hhead | htail
        · exact ⟨e, by simp, rel, hsel, hs, by rw [hhead]⟩
        · obtain ⟨e0, he0, rel0, hs0, hst0, hwp⟩ :=
            ih (fun x hx hb => h x (by simp [hx]) hb) w htail
          exact ⟨e0, by simp [he0], rel0, hs0, hst0, hwp⟩
      | none =>
        have := h e (by simp) hsel
        rw [hs] at this
        simp at this
    · simp only [Bool.not_eq_true] at hsel
      simp only [hsel, Bool.false_eq_true, if_false] at hw
      obtain ⟨e0, he0, rel0, hs0, hst0, hwp⟩ :=
        ih (fun x hx hb => h x (by simp [hx]) hb) w hw
      exact ⟨e0, by simp [he0], rel0, hs0, hst0, hwp⟩

/-- Counterexample to C6: in the pup variant a matching entry's bytes are
first written at the scratch path equal to the full entry name, which
differs from the final path, so the write is not direct and a transient
scratch subtree exists. -/
theorem c6_counterexample_pup_scratch_write :
    pupEntryOps (pupDownloadAll pupCfgEmpty) pupCfgEmpty dataBundle
      ("resources/DATA/files/pet_proc/a.dat".toList, 5)
      = [ExtractOp.writeFile "resources/DATA/files/pet_proc/a.dat".toList 5,
         ExtractOp.makeDirs "pet_proc".toList,
         ExtractOp.moveFile "resources/DATA/files/pet_proc/a.dat".toList
           "pet_proc/a.dat".toList,
         ExtractOp.removeTree "resources".toList] ∧
    "resources/DATA/files/pet_proc/a.dat".toList ≠ "pet_proc/a.dat".toList := by decide

/-- C6 amended: in the freesurfer variant each matching entry's bytes are
written directly to the stripped final path (one mkdir and one write, no
scratch, no move, no removal), non-matching entries produce no operation,
and a conforming run from a clean root ends with exactly the filtered
subset; in the pup variant a matching entry is first extracted to a
scratch path equal to the full entry name, then moved to its final path
and the scratch root removed, the net per-entry effect being a single
write at the final path when the scratch root covers no other file. -/
theorem c6_amended_write_behavior :
    (∀ (download_all : Bool) (cfg : FsConfig) (rn : Str) (e : Str × Nat) (rel : Str),
      shouldExtractFs download_all cfg rn e.1 = true →
      stripEntry rn e.1 = some rel →
      fsEntryOps download_all cfg rn e
        = [ExtractOp.makeDirs (parentDirOf rel), ExtractOp.writeFile rel e.2]) ∧
    (∀ (download_all : Bool) (cfg : FsConfig) (rn : Str) (e : Str × Nat),
      shouldExtractFs download_all cfg rn e.1 = false →
      fsEntryOps download_all cfg rn e = []) ∧
    (∀ (download_all : Bool) (cfg : FsConfig) (rn : Str) (es : List (Str × Nat)),
      (∀ e ∈ es, shouldExtractFs download_all cfg rn e.1 = true →
        (stripEntry rn e.1).isSome = true) →
      extractFsRun download_all cfg rn es []
        = (applyWrites [] (fsFilteredWrites download_all cfg rn es), true)) ∧
    (∀ (download_all : Bool) (cfg : PupConfig) (rn : Str) (e : Str × Nat) (rel : Str),
      shouldExtractPup download_all cfg rn e.1 = true →
      stripEntry rn e.1 = some rel →
      pupEntryOps download_all cfg rn e = pupEntryOpsCore e rel) ∧
    (∀ (download_all : Bool) (cfg : PupConfig) (rn : Str) (e : Str × Nat),
      shouldExtractPup download_all cfg rn e.1 = false →
      pupEntryOps download_all cfg rn e = []) ∧
    (∀ (fs : FileSys) (e : Str × Nat) (rel : Str),
      (∀ x ∈ fs, dirCovers (firstSlashComp e.1) x.1 = false) →
      dirCovers (firstSlashComp e.1) (pupFinalPath e.1 rel) = false →
      evalOps fs (pupEntryOpsCore e rel) = fsWrite fs (pupFinalPath e.1 rel) e.2) := by
  refine ⟨?_, ?_, ?_, ?_, ?_, ?_⟩
  · intro download_all cfg rn e rel hsel hstrip
    unfold fsEntryOps
    rw [if_pos hsel, hstrip]
  · intro download_all cfg rn e hsel
    unfold fsEntryOps
    rw [if_neg (by simp [hsel])]
  · intro download_all cfg rn es hconf
    rw [extractFsRun_spec download_all cfg rn es [],
      fsRunWrites_of_conforming download_all cfg rn es hconf,
      fsRunOk_of_conforming download_all cfg rn es hconf]
  · intro download_all cfg rn e rel hsel hstrip
    unfold pupEntryOps
    rw [if_pos hsel, hstrip]
  · intro download_all cfg rn e hsel
    unfold pupEntryOps
    rw [if_neg (by simp [hsel])]
  · exact fun fs e rel hA hB => evalOps_pupEntryCore fs e rel hA hB

/-- Witness for C6's amended statement at concrete entries. -/
theorem c6_amended_write_behavior_witness :
    fsEntryOps true fsCfgEmpty dataBundle ("resources/DATA/files/surf/lh.pial".toList, 7)
      = [ExtractOp.makeDirs (parentDirOf "surf/lh.pial".toList),
         ExtractOp.writeFile "surf/lh.pial".toList 7] ∧
    pupEntryOps true pupCfgEmpty dataBundle ("resources/DATA/files/pet_proc/a.dat".toList, 5)
      = pupEntryOpsCore ("resources/DATA/files/pet_proc/a.dat".toList, 5)
          "pet_proc/a.dat".toList ∧
    evalOps [] (pupEntryOpsCore ("resources/DATA/files/pet_proc/a.dat".toList, 5)
        "pet_proc/a.dat".toList)
      = fsWrite []
          (pupFinalPath "resources/DATA/files/pet_proc/a.dat".toList "pet_proc/a.dat".toList) 5 :=
  ⟨c6_amended_write_behavior.1 true fsCfgEmpty dataBundle
     ("resources/DATA/files/surf/lh.pial".toList, 7) "surf/lh.pial".toList
     (by decide) (by decide),
   c6_amended_write_behavior.2.2.2.1 true pupCfgEmpty dataBundle
     ("resources/DATA/files/pet_proc/a.dat".toList, 5) "pet_proc/a.dat".toList
     (by decide) (by decide),
   c6_amended_write_behavior.2.2.2.2.2 []
     ("resources/DATA/files/pet_proc/a.dat".toList, 5) "pet_proc/a.dat".toList
     (by intro x hx; simp at hx) (by decide)⟩

/-- Counterexample to C9: for a structurally valid archive whose single
entry lacks the internal marker, the include-all extraction raises on the
first run and on the second run alike, so running twice does not terminate
without error. -/
theorem c9_counterexample_error_on_run :
    (extractFsRun (fsDownloadAll fsCfgEmpty) fsCfgEmpty dataBundle
      [("stray.txt".toList, 1)] []).2 = false ∧
    (extractFsRun (fsDownloadAll fsCfgEmpty) fsCfgEmpty dataBundle
      [("stray.txt".toList, 1)]
      ((extractFsRun (fsDownloadAll fsCfgEmpty) fsCfgEmpty dataBundle
        [("stray.txt".toList, 1)] []).1)).2 = false := by decide

/-- C9 amended: running the extraction twice into an initially clean
output root yields exactly the same final tree and outcome as running it
once — in the freesurfer variant for every archive and configuration, and
in the pup variant for archives whose selected entries all carry the
internal marker and whose scratch roots cover no written output; the runs
complete without raising exactly when every selected entry carries the
`resources/{bundle}/files/` marker. -/
theorem c9_amended_idempotent
    (allF : Bool) (cfgF : FsConfig) (allP : Bool) (cfgP : PupConfig)
    (rn : Str) (es : List (Str × Nat)) :
    (extractFsRun allF cfgF rn es ((extractFsRun allF cfgF rn es []).1)
       = extractFsRun allF cfgF rn es []) ∧
    ((∀ e ∈ es, shouldExtractFs allF cfgF rn e.1 = true →
        (stripEntry rn e.1).isSome = true) →
      (extractFsRun allF cfgF rn es []).2 = true) ∧
    ((∀ e ∈ es, shouldExtractPup allP cfgP rn e.1 = true →
        (stripEntry rn e.1).isSome = true) →
     (∀ e ∈ es, ∀ e' ∈ es, shouldExtractPup allP cfgP rn e.1 = true →
        shouldExtractPup allP cfgP rn e'.1 = true →
        Option.all (fun rel =>
          !(dirCovers (firstSlashComp e'.1) (pupFinalPath e.1 rel)))
          (stripEntry rn e.1) = true) →
      pupExtractRun allP cfgP rn es ((pupExtractRun allP cfgP rn es []).1)
        = pupExtractRun allP cfgP rn es []
      ∧ (pupExtractRun allP cfgP rn es []).2 = true) := by
  refine ⟨?_, ?_, ?_⟩
  · rw [extractFsRun_spec allF cfgF rn es []]
    dsimp only
    rw [extractFsRun_spec allF cfgF rn es
      (applyWrites [] (fsRunWrites allF cfgF rn es))]
    rw [applyWrites_twice]
  · intro hconf
    rw [extractFsRun_spec allF cfgF rn es []]
    exact fsRunOk_of_conforming allF cfgF rn es hconf
  · intro hconfP hP
    have hff : ∀ e ∈ es, ∀ e' ∈ es, shouldExtractPup allP cfgP rn e.1 = true →
        shouldExtractPup allP cfgP rn e'.1 = true →
        ∀ rel, stripEntry rn e.1 = some rel →
          dirCovers (firstSlashComp e'.1) (pupFinalPath e.1 rel) = false := by
      intro e he e' he' h1 h2 rel hrel
      have hp := hP e he e' he' h1 h2
      rw [hrel] at hp
      simpa using hp
    have h1 := pupExtractRun_spec allP cfgP rn es []
      (by intro x hx; simp at hx) hff
    have hok := pupRunOk_of_conforming allP cfgP rn es hconfP
    constructor
    · rw [h1]
      dsimp only
      have hfs2 : ∀ x ∈ applyWrites [] (pupRunWrites allP cfgP rn es), ∀ e ∈ es,
          shouldExtractPup allP cfgP rn e.1 = true →
          dirCovers (firstSlashComp e.1) x.1 = false := by
        intro x hx e2 he2 hsel2
        have hpath := applyWrites_paths_subset [] (pupRunWrites allP cfgP rn es) x hx
        simp only [List.map_nil, List.not_mem_nil, false_or] at hpath
        obtain ⟨w, hw, hweq⟩ := List.mem_map.mp hpath
        obtain ⟨e0, he0, rel0, hsel0, hst0, hwp⟩ :=
          pupRunWrites_paths allP cfgP rn es hconfP w hw
        rw [← hweq, hwp]
        exact hff e0 he0 e2 he2 hsel0 hsel2 rel0 hst0
      rw [pupExtractRun_spec allP cfgP rn es
        (applyWrites [] (pupRunWrites allP cfgP rn es)) hfs2 hff]
      rw [applyWrites_twice]
    · rw [h1]
      exact hok

/-- Witness for C9's amended statement at a concrete conforming archive. -/
theorem c9_amended_idempotent_witness :
    (extractFsRun (fsDownloadAll fsCfgEmpty) fsCfgEmpty dataBundle
      [("resources/DATA/files/pet_proc/a.dat".toList, 5)]
      ((extractFsRun (fsDownloadAll fsCfgEmpty) fsCfgEmpty dataBundle
        [("resources/DATA/files/pet_proc/a.dat".toList, 5)] []).1)
      = extractFsRun (fsDownloadAll fsCfgEmpty) fsCfgEmpty dataBundle
        [("resources/DATA/files/pet_proc/a.dat".toList, 5)] []) ∧
    (extractFsRun (fsDownloadAll fsCfgEmpty) fsCfgEmpty dataBundle
      [("resources/DATA/files/pet_proc/a.dat".toList, 5)] []).2 = true ∧
    (pupExtractRun (pupDownloadAll pupCfgEmpty) pupCfgEmpty dataBundle
      [("resources/DATA/files/pet_proc/a.dat".toList, 5)]
      ((pupExtractRun (pupDownloadAll pupCfgEmpty) pupCfgEmpty dataBundle
        [("resources/DATA/files/pet_proc/a.dat".toList, 5)] []).1)
      = pupExtractRun (pupDownloadAll pupCfgEmpty) pupCfgEmpty dataBundle
        [("resources/DATA/files/pet_proc/a.dat".toList, 5)] []
     ∧ (pupExtractRun (pupDownloadAll pupCfgEmpty) pupCfgEmpty dataBundle
        [("resources/DATA/files/pet_proc/a.dat".toList, 5)] []).2 = true) :=
  have h := c9_amended_idempotent (fsDownloadAll fsCfgEmpty) fsCfgEmpty
    (pupDownloadAll pupCfgEmpty) pupCfgEmpty dataBundle
    [("resources/DATA/files/pet_proc/a.dat".toList, 5)]
  ⟨h.1, h.2.1 (by decide), h.2.2 (by decide) (by decide)⟩
